/-
Verification of the bibeasy reconciliation, sync and reference-rewriting
utilities (src/bibeasy/utils.py) against their natural-language
specification.

The embedding models Python strings as lists of characters, pandas
dataframes as lists of rows (the default RangeIndex is the list
position), numpy index arrays as an inductive that distinguishes a
one-dimensional array from the zero-dimensional array produced by
np.array(scalar), and Python exceptions as the error case of Except.
pandas operations that return fresh frames (filtering, copy, the
non-inplace drop) are modelled as pure functions; the source never uses
an in-place variant.
-/
import Mathlib

set_option maxHeartbeats 1000000

/-- Python strings, as lists of characters. -/
abbrev Str := List Char

/-- One dataframe row with the columns used by the matching utilities:
ID, Type, Title, Authors and Journal/Conference.  The column named Type
in the source is called Typ here because Type is reserved in Lean, and
the column Journal/Conference is called JournalConference. -/
structure Row where
  ID : Str
  Typ : Str
  Title : Str
  Authors : Str
  JournalConference : Str
deriving DecidableEq

/-- Build a row from string literals. -/
def mkRow (id ty ti au jc : String) : Row :=
  ⟨id.toList, ty.toList, ti.toList, au.toList, jc.toList⟩

/-- A Python dict from strings to strings, insertion ordered. -/
abbrev Dict := List (Str × Str)

/-- Assignment d[k] = v of a Python dict: overwrite the value in place if
the key is present, append the pair otherwise. -/
def dictSet (d : Dict) (k v : Str) : Dict :=
  if d.any (fun p => p.1 == k) then
    d.map (fun p => if p.1 == k then (k, v) else p)
  else d ++ [(k, v)]

/-- Membership test of a Python dict (the in operator). -/
def dictHas (d : Dict) (k : Str) : Bool :=
  d.any (fun p => p.1 == k)

/-- Python dict lookup d[k]; raises KeyError when the key is absent. -/
def dictGet (d : Dict) (k : Str) : Except String Str :=
  match (d.filter (fun p => p.1 == k)).head? with
  | some p => .ok p.2
  | none => .error "KeyError"

/-- ccvtype2usertype of utils.py. -/
def ccvtype2usertype : Dict :=
  [("Journal Articles".toList, "article".toList),
   ("Conference Publications".toList, "proceedings".toList)]

/-- The per-kind title field labels used by xml_to_df and sync. -/
def field_title : Dict :=
  [("Journal Articles".toList, "Article Title".toList),
   ("Conference Publications".toList, "Publication Title".toList)]

/-- The per-kind venue field labels used by xml_to_df and sync. -/
def field_venue : Dict :=
  [("Journal Articles".toList, "Journal".toList),
   ("Conference Publications".toList, "Conference Name".toList)]

/-- A numpy integer array as used for id_ccv in find_matching_ref: either
a one-dimensional array of indices (index.values) or the
zero-dimensional array produced by np.array(scalar). -/
inductive NpArr where
  | vec : List Nat → NpArr
  | scalar : Nat → NpArr
deriving DecidableEq

/-- len() of a numpy array; a zero-dimensional array has no len() and
raises TypeError. -/
def pyLen : NpArr → Except String Nat
  | .vec l => .ok l.length
  | .scalar _ => .error "TypeError: len() of unsized object"

/-- First element arr[0] of a numpy array. -/
def npGetZero : NpArr → Except String Nat
  | .vec [] => .error "IndexError: index 0 is out of bounds"
  | .vec (i :: _) => .ok i
  | .scalar _ => .error "IndexError: too many indices for array"

/-- Series element access df[col][i] by index label; raises KeyError when
the label is not in the index.  With the default RangeIndex of the
frames built by xml_to_df, the label is the list position. -/
def dfAt (df : List Row) (i : Nat) : Except String Row :=
  match df.get? i with
  | some r => .ok r
  | none => .error "KeyError"

/-- DataFrame.drop(i) on an indexed sub-frame: returns a fresh frame
without the row labelled i, and raises KeyError when i is not present
(the default errors policy of pandas). -/
def dropIdx (un : List (Nat × Row)) (i : Nat) : Except String (List (Nat × Row)) :=
  if un.any (fun p => p.1 == i) then .ok (un.filter (fun p => p.1 != i))
  else .error "KeyError"

/-- Index values df[pred].index.values of the rows satisfying a
predicate. -/
def idxFilter (df : List Row) (p : Row → Bool) : List Nat :=
  (df.enum.filter (fun x => p x.2)).map (fun x => x.1)

/-- The venue-disambiguation loop of find_matching_ref: walk the
candidate indices and, at the first candidate whose Journal/Conference
equals the CSV row venue, rebind id_ccv to np.array(candidate) — a
zero-dimensional array — and break. -/
def venueLoop (df_ccv : List Row) (rowJC : Str) (cur : NpArr) :
    List Nat → Except String NpArr
  | [] => .ok cur
  | i :: rest => do
      let r ← dfAt df_ccv i
      if r.JournalConference == rowJC then .ok (NpArr.scalar i)
      else venueLoop df_ccv rowJC cur rest

/-- The check_mismatched_fields pass of find_matching_ref over the fields
Authors and Journal/Conference, in source order. -/
def mismatchFields (b row : Row) : List Str :=
  (if b.Authors == row.Authors then [] else ["Authors".toList]) ++
  (if b.JournalConference == row.JournalConference then []
   else ["Journal/Conference".toList])

/-- The mutable per-kind state of the find_matching_ref loop: the csv2ccv
dict, the df_ccv_unmatched sub-frame with its original index labels, the
three counters and the accumulated mismatch warnings. -/
structure KState where
  csv2ccv : Dict
  un : List (Nat × Row)
  n_found : Nat
  n_missed : Nat
  n_duplicate : Nat
  mismatches : List (Str × List Str)
deriving DecidableEq

/-- The per-kind classification summary printed by find_matching_ref:
counters, the rows remaining in df_ccv_unmatched (orphans) and the
mismatch warnings. -/
structure KindReport where
  pubtype : Str
  n_found : Nat
  n_missed : Nat
  n_duplicate : Nat
  orphans : List Row
  mismatches : List (Str × List Str)
deriving DecidableEq

/-- Processing of a single CSV row by find_matching_ref.  The candidate
search runs over the FULL df_ccv frame (the source queries df_ccv, not
df_ccv_unmatched); the unique match is recorded and dropped from the
unmatched pool; zero candidates record the sentinel missed; two or more
candidates run the venue loop first and then test len(id_ccv). -/
def processRow (df_ccv : List Row) (row : Row) (st : KState) :
    Except String KState := do
  let ids := idxFilter df_ccv (fun r => r.Typ == row.Typ && r.Title == row.Title)
  let id_ccv := NpArr.vec ids
  let id_ccv ← if ids.length ≥ 2 then
      venueLoop df_ccv row.JournalConference id_ccv ids
    else pure id_ccv
  let n ← pyLen id_ccv
  if n == 1 then do
    let i ← npGetZero id_ccv
    let b ← dfAt df_ccv i
    let un' ← dropIdx st.un i
    let mism := mismatchFields b row
    .ok { st with
          csv2ccv := dictSet st.csv2ccv row.ID b.ID,
          un := un',
          n_found := st.n_found + 1,
          mismatches := st.mismatches ++
            (if mism.isEmpty then [] else [(row.ID, mism)]) }
  else if n == 0 then
    .ok { st with
          csv2ccv := dictSet st.csv2ccv row.ID ("missed".toList),
          n_missed := st.n_missed + 1 }
  else
    .ok { st with
          csv2ccv := dictSet st.csv2ccv row.ID ("dupl".toList),
          n_duplicate := st.n_duplicate + 1 }

/-- The collections handed to find_matching_ref.  The engine is supposed
to leave them untouched; the state is threaded through the run so that
this can be stated and proved. -/
structure FMRState where
  df_csv : List Row
  df_ccv : List Row
deriving DecidableEq

/-- One row step, returning the (unchanged) source collections along
with the updated loop state. -/
def processRowS (s : FMRState) (row : Row) (st : KState) :
    Except String (KState × FMRState) :=
  (processRow s.df_ccv row st).map (fun st' => (st', s))

/-- The iterrows loop over the CSV rows of the current kind. -/
def foldRowsS (s : FMRState) (st : KState) :
    List Row → Except String (KState × FMRState)
  | [] => .ok (st, s)
  | r :: rs => do
      let (st', s') ← processRowS s r st
      foldRowsS s' st' rs

/-- One iteration of the outer pubtype loop of find_matching_ref: fresh
csv2ccv dict, fresh df_ccv_unmatched copy of the rows of this kind, the
row loop, then the orphan listing and the printed summary. -/
def runPubtypeS (s : FMRState) (pt : Str) :
    Except String ((Dict × KindReport) × FMRState) := do
  let un0 := s.df_ccv.enum.filter (fun p => p.2.Typ == pt)
  let rows := s.df_csv.filter (fun r => r.Typ == pt)
  let (st, s') ← foldRowsS s
      { csv2ccv := [], un := un0, n_found := 0, n_missed := 0,
        n_duplicate := 0, mismatches := [] } rows
  .ok ((st.csv2ccv,
        { pubtype := pt, n_found := st.n_found, n_missed := st.n_missed,
          n_duplicate := st.n_duplicate, orphans := st.un.map (fun p => p.2),
          mismatches := st.mismatches }), s')

/-- The outer loop.  csv2ccv is re-initialized inside each iteration, so
the returned dict is the one of the LAST pubtype only, while the printed
reports accumulate.  An empty pubtype list would leave csv2ccv unbound
at the return statement. -/
def fmrLoopS (s : FMRState) : List Str →
    Except String ((Dict × List KindReport) × FMRState)
  | [] => .error "UnboundLocalError: csv2ccv"
  | [pt] => do
      let ((m, rep), s') ← runPubtypeS s pt
      .ok ((m, [rep]), s')
  | pt :: rest => do
      let ((_, rep), s') ← runPubtypeS s pt
      let ((m, reps), s'') ← fmrLoopS s' rest
      .ok ((m, rep :: reps), s'')

/-- The default pubtype list used when the caller passes None or an
empty list. -/
def defaultPubtypes : List Str := ["article".toList, "proceedings".toList]

/-- find_matching_ref of utils.py, state-threading variant: returns the
csv2ccv dict of the last processed kind, the per-kind reports, and the
final value of the two source collections. -/
def find_matching_refS (s : FMRState) (pubtypes : Option (List Str)) :
    Except String ((Dict × List KindReport) × FMRState) :=
  match pubtypes with
  | none => fmrLoopS s defaultPubtypes
  | some l => if l.length < 1 then fmrLoopS s defaultPubtypes else fmrLoopS s l

/-- find_matching_ref of utils.py: the returned dict and the printed
per-kind reports. -/
def find_matching_ref (df_csv df_ccv : List Row) (pubtypes : Option (List Str)) :
    Except String (Dict × List KindReport) :=
  (find_matching_refS ⟨df_csv, df_ccv⟩ pubtypes).map (fun x => x.1)

/-- Python str.split with a single-character separator. -/
def pySplitChar (c : Char) : List Char → List (List Char)
  | [] => [[]]
  | x :: xs =>
    match pySplitChar c xs with
    | [] => [[]]
    | hd :: t => if x = c then [] :: hd :: t else (x :: hd) :: t

/-- Python str.split with a (nonempty) multi-character separator,
structural version on an explicit fuel that the wrapper instantiates
with the string length.  An empty separator never splits here; the
source only ever splits on the two-character separator of a comma and a
blank. -/
def pySplitFuel (sep : List Char) : Nat → List Char → List (List Char)
  | 0, s => [s]
  | _ + 1, [] => [[]]
  | fuel + 1, x :: xs =>
    if sep.isPrefixOf (x :: xs) && !sep.isEmpty then
      [] :: pySplitFuel sep fuel ((x :: xs).drop sep.length)
    else
      match pySplitFuel sep fuel xs with
      | [] => [[]]
      | hd :: t => (x :: hd) :: t

/-- Python str.split(sep). -/
def pySplit (sep s : List Char) : List (List Char) :=
  pySplitFuel sep s.length s

/-- Python str.replace(old, new), replacing every non-overlapping
occurrence from the left; structural version on an explicit fuel. -/
def pyReplaceFuel (old new : List Char) : Nat → List Char → List Char
  | 0, s => s
  | _ + 1, [] => []
  | fuel + 1, x :: xs =>
    if old.isPrefixOf (x :: xs) && !old.isEmpty then
      new ++ pyReplaceFuel old new fuel ((x :: xs).drop old.length)
    else
      x :: pyReplaceFuel old new fuel xs

/-- Python str.replace(old, new).  An empty old inserts new at every
position, as in Python. -/
def pyReplace (s old new : List Char) : List Char :=
  if old.isEmpty then new ++ s.flatMap (fun c => c :: new)
  else pyReplaceFuel old new s.length s

/-- find_ref_blocks of utils.py: txt.split on the opening bracket, drop
the text before the first block, and cut each piece at the first closing
bracket. -/
def find_ref_blocks (txt : Str) : List Str :=
  ((pySplitChar '[' txt).drop 1).map (fun a => (pySplitChar ']' a).headD [])

/-- The per-id lookup of replace_ref_in_text: the rows of df_old with
this ID, then the rows of df_new whose Title is among their titles (the
venue filter is commented out in the source), and the first ID of the
result, or the question-mark placeholder when there is none. -/
def newIdFor (df_old df_new : List Row) (id_old : Str) : Str :=
  let ref_old := df_old.filter (fun r => r.ID == id_old)
  let ref_new := df_new.filter
      (fun r => (ref_old.map (fun r2 => r2.Title)).contains r.Title)
  match ref_new with
  | [] => "?".toList
  | r :: _ => r.ID

/-- display_replacement of utils.py: purely informational printing, but
it reads the Title of the first df_old row with the old ID
unconditionally, so an old ID absent from df_old raises IndexError. -/
def display_replacement (df_old : List Row) (id_old : Str) : Except String Unit :=
  match (df_old.filter (fun r => r.ID == id_old)).head? with
  | some _ => .ok ()
  | none => .error "IndexError"

/-- A stable ascending sort with the Python string order, as list.sort()
performs (insertion variant; stability and the order agree with the
stable sort of Python). -/
def pyStrLt : Str → Str → Bool
  | [], [] => false
  | [], _ :: _ => true
  | _ :: _, [] => false
  | a :: as, b :: bs => if a < b then true else if a = b then pyStrLt as bs else false

/-- Insert into a sorted list after all entries not greater (stable). -/
def pyInsert (x : Str) : List Str → List Str
  | [] => [x]
  | y :: ys => if pyStrLt x y then x :: y :: ys else y :: pyInsert x ys

/-- list.sort() of Python on a list of strings. -/
def pySort (l : List Str) : List Str :=
  l.foldl (fun acc x => pyInsert x acc) []

/-- The per-block id loop of replace_ref_in_text: for each old id, look
up the new id, then run display_replacement (which can raise), and
collect the new ids in order. -/
def processIds (df_old df_new : List Row) : List Str → Except String (List Str)
  | [] => .ok []
  | id_old :: rest => do
      let id_new := newIdFor df_old df_new id_old
      let _ ← display_replacement df_old id_old
      let others ← processIds df_old df_new rest
      .ok (id_new :: others)

/-- Processing of one bracketed block by replace_ref_in_text: split the
block on the comma-blank separator, map the ids, optionally sort, join,
and substitute the new block for EVERY occurrence of the old block text
in the whole line via str.replace. -/
def processBlock (df_old df_new : List Row) (sort_ref : Bool) (line ref_block : Str) :
    Except String Str := do
  let list_ref_old := pySplit (", ".toList) ref_block
  let list_ref_new ← processIds df_old df_new list_ref_old
  let list_ref_new := if sort_ref then pySort list_ref_new else list_ref_new
  let ref_block_new := List.intercalate (", ".toList) list_ref_new
  .ok (pyReplace line ref_block ref_block_new)

/-- Processing of one input line by replace_ref_in_text: the blocks are
extracted from the original line, then each block replacement rewrites
the current line in turn. -/
def processLine (df_old df_new : List Row) (sort_ref : Bool) (line : Str) :
    Except String Str :=
  (find_ref_blocks line).foldlM (fun ln blk => processBlock df_old df_new sort_ref ln blk) line

/-- replace_ref_in_text of utils.py: the list of printed lines. -/
def replace_ref_in_text (df_old df_new : List Row) (input_refs : List Str)
    (sort_ref : Bool := false) : Except String (List Str) :=
  input_refs.mapM (processLine df_old df_new sort_ref)

/-- A field element of a CCV publication entry together with the text of
its value child. -/
structure XmlField where
  label : Str
  value : Str
deriving DecidableEq

/-- A publication entry of the CCV XML tree: the section label naming
the kind, and the field elements in document order. -/
structure Entry where
  label : Str
  fields : List XmlField
deriving DecidableEq

/-- entry.find of the value text of the first field with a label, as the
ElementTree find of field[@label=...]/value returns. -/
def findValue (p : Entry) (lab : Str) : Option Str :=
  ((p.fields.filter (fun f => f.label == lab)).head?).map (fun f => f.value)

/-- Reading .text of a find result; a missing field raises
AttributeError on the None result. -/
def getValueE (p : Entry) (lab : Str) : Except String Str :=
  match findValue p lab with
  | some v => .ok v
  | none => .error "AttributeError: NoneType has no attribute text"

/-- Overwrite the value text of the first field with the given label. -/
def setFirst : List XmlField → Str → Str → List XmlField
  | [], _, _ => []
  | f :: fs, lab, v =>
    if f.label == lab then { f with value := v } :: fs
    else f :: setFirst fs lab v

/-- Assigning .text on a find result: overwrite the value text of the
first matching field, or raise AttributeError when the field is
missing. -/
def setValueE (p : Entry) (lab v : Str) : Except String Entry :=
  if p.fields.any (fun f => f.label == lab) then
    .ok { p with fields := setFirst p.fields lab v }
  else .error "AttributeError: NoneType has no attribute text"

/-- The ValueError message raised by sync when the venue filter does not
leave exactly one candidate (the source formats nothing into the
literal braces). -/
def syncDisambToken : String :=
  "ValueError: Could not disambiguate publication \x7brepr(title)\x7d found in CCV XML."

/-- Processing of one publication entry by sync: unhandled kinds are
skipped; the entry title is read in place; the CSV rows of the same kind
and title are the candidates; zero candidates skip the entry; two or
more candidates are filtered by venue equality and anything but exactly
one survivor raises ValueError; the unique row then overwrites the
Authors value and the venue value of the entry. -/
def syncEntry (df_csv : List Row) (p : Entry) : Except String Entry :=
  if dictHas ccvtype2usertype p.label then do
    let ft ← dictGet field_title p.label
    let title ← getValueE p ft
    let ut ← dictGet ccvtype2usertype p.label
    let row := df_csv.filter (fun r => r.Typ == ut && r.Title == title)
    if row.length == 0 then .ok p
    else do
      let row ← if row.length > 1 then do
          let fv ← dictGet field_venue p.label
          let vtext ← getValueE p fv
          let row2 := row.filter (fun r => r.JournalConference == vtext)
          if row2.length == 1 then pure row2 else .error syncDisambToken
        else pure row
      match row with
      | [r] => do
          let p' ← setValueE p ("Authors".toList) r.Authors
          let fv ← dictGet field_venue p.label
          let p'' ← setValueE p' fv r.JournalConference
          .ok p''
      | _ => .error "AssertionError"
  else .ok p

/-- The entry loop of sync, in document order; an exception aborts the
remaining entries. -/
def syncEntries (df_csv : List Row) : List Entry → Except String (List Entry)
  | [] => .ok []
  | p :: ps => do
      let p' ← syncEntry df_csv p
      let ps' ← syncEntries df_csv ps
      .ok (p' :: ps')

/-- sync of utils.py on the publications of the parsed tree.  The Bool
records that the final xml.write(fname_xml) executed: sync serializes
the updated tree back to the input file itself; when an exception
escapes the loop, nothing is written. -/
def sync (df_csv : List Row) (tree : List Entry) :
    Except String (List Entry × Bool) := do
  let t ← syncEntries df_csv tree
  .ok (t, true)

/-- CSV side for the double-consumption run: two articles sharing the
title Foo with different venues. -/
def rowsA1 : List Row :=
  [mkRow "csv1" "article" "Foo" "A1" "Nature",
   mkRow "csv2" "article" "Foo" "A2" "Science"]

/-- CCV side for the double-consumption run: a single article Foo. -/
def rowsB1 : List Row := [mkRow "J1" "article" "Foo" "A1" "Nature"]

/-- CSV side for the venue-disambiguation run: one article Foo at
Nature. -/
def rowsA2 : List Row := [mkRow "csv1" "article" "Foo" "A1" "Nature"]

/-- CCV side for the venue-disambiguation run: two articles titled Foo,
exactly one of them at the venue of the CSV row. -/
def rowsB2 : List Row :=
  [mkRow "J1" "article" "Foo" "A1" "Nature",
   mkRow "J2" "article" "Foo" "A2" "Science"]

/-- CSV side for the two-kind perfect-match run. -/
def rowsA3 : List Row :=
  [mkRow "csv1" "article" "Foo" "A1" "Nature",
   mkRow "csv2" "proceedings" "Bar" "A2" "ISMRM"]

/-- CCV side for the two-kind perfect-match run: the unique same-kind
same-title same-venue counterparts. -/
def rowsB3 : List Row :=
  [mkRow "J1" "article" "Foo" "A1" "Nature",
   mkRow "C1" "proceedings" "Bar" "A2" "ISMRM"]





/-- Old collection for the rewriter counterexample: J1 titled Foo. -/
def dfOld6 : List Row := [mkRow "J1" "article" "Foo" "A" "N"]

/-- New collection for the rewriter counterexample: J9 titled Foo. -/
def dfNew6 : List Row := [mkRow "J9" "article" "Foo" "A" "N"]



/-- Old collection for the spec scenario: J1 titled Foo, J2 titled Bar. -/
def dfOldW : List Row :=
  [mkRow "J1" "article" "Foo" "A" "N", mkRow "J2" "article" "Bar" "A" "N"]

/-- New collection for the spec scenario: only Foo exists, as J9. -/
def dfNewW : List Row := [mkRow "J9" "article" "Foo" "A" "N"]


/-- CSV collection used by the sync runs: two articles share the title
Foo with distinct venues, one article is titled Bar. -/
def dfSync : List Row :=
  [mkRow "csv1" "article" "Foo" "A1" "V1",
   mkRow "csv2" "article" "Foo" "A2" "V2",
   mkRow "csv3" "article" "Bar" "A3" "V3"]

/-- A target entry whose title Foo has two CSV candidates and whose
venue V9 matches neither: disambiguation fails. -/
def entAmb : Entry :=
  ⟨"Journal Articles".toList,
   [⟨"Article Title".toList, "Foo".toList⟩,
    ⟨"Journal".toList, "V9".toList⟩,
    ⟨"Authors".toList, "X".toList⟩]⟩

/-- A target entry titled Bar with a unique CSV counterpart; its Authors
and Journal values are stale. -/
def entBar : Entry :=
  ⟨"Journal Articles".toList,
   [⟨"Article Title".toList, "Bar".toList⟩,
    ⟨"Authors".toList, "old".toList⟩,
    ⟨"Journal".toList, "oldJ".toList⟩]⟩

/-- entBar after sync: Authors and Journal overwritten from csv3. -/
def entBarUpd : Entry :=
  ⟨"Journal Articles".toList,
   [⟨"Article Title".toList, "Bar".toList⟩,
    ⟨"Authors".toList, "A3".toList⟩,
    ⟨"Journal".toList, "V3".toList⟩]⟩



/-- A target entry of an unrecognized kind, left untouched. -/
def entTalk : Entry := ⟨"Talks".toList, [⟨"Title".toList, "T".toList⟩]⟩


/-- A target entry titled Qux with no CSV candidate at all. -/
def entQux : Entry :=
  ⟨"Journal Articles".toList, [⟨"Article Title".toList, "Qux".toList⟩]⟩

/-- A row with its Journal/Conference column overwritten; every other
column is untouched. -/
def withVenue (r : Row) (v : Str) : Row := { r with JournalConference := v }

/-- The venue field label a sync pass may write for an entry of the
given section label (empty for unhandled labels, which sync never
touches). -/
def venueLabelOf (plab : Str) : Str :=
  match dictGet field_venue plab with
  | .ok v => v
  | .error _ => []

/-- A field of a synced entry, related to its original: the label is
unchanged, and any field that is neither the Authors field nor the venue
field of the entry kind is entirely unchanged. -/
def fieldFrame (plab : Str) (f f' : XmlField) : Prop :=
  f'.label = f.label ∧
    (f.label ≠ "Authors".toList → f.label ≠ venueLabelOf plab → f' = f)

/-- A synced entry, related to its original: same section label, fields
in the same order related one by one by fieldFrame. -/
def entryFrame (p p' : Entry) : Prop :=
  p'.label = p.label ∧ List.Forall₂ (fieldFrame p.label) p.fields p'.fields

/-- C1: the spec says a B record, once matched, is removed from the pool
and a later same-title A record finds zero candidates and is classified
missing, so no two A records map to one B record.  The code instead
searches the FULL df_ccv frame for candidates: on two CSV articles
titled Foo against one CCV article Foo, the second CSV row matches the
already-consumed J1 again and the second drop from df_ccv_unmatched
raises KeyError, where the spec promises a missed classification. -/
theorem find_matching_ref_double_consumption_keyerror :
    find_matching_ref rowsA1 rowsB1 (some ["article".toList]) = .error "KeyError" ∧
    idxFilter rowsB1 (fun r => r.Typ == "article".toList && r.Title == "Foo".toList) = [0] := by
  exact ⟨rfl, rfl⟩

/-- C2: the spec says that with two or more same-title candidates,
exactly one venue-equal survivor is matched and consumed.  In the code
the surviving index is wrapped as np.array(scalar), a zero-dimensional
array, and the next len(id_ccv) call raises TypeError, so the
match never happens: one CSV article Foo at Nature against CCV rows Foo
at Nature and Foo at Science raises instead of matching J1. -/
theorem find_matching_ref_venue_survivor_typeerror :
    find_matching_ref rowsA2 rowsB2 (some ["article".toList]) =
      .error "TypeError: len() of unsized object" := by
  exact rfl

/-- C3: the spec says a perfect one-to-one input yields one matched
mapping entry per A record over all requested kinds.  csv2ccv is
re-initialized inside the per-kind loop, so on a perfectly matched
two-kind input the returned mapping only contains the proceedings entry
csv2 and has lost the article entry csv1, although both per-kind reports
show a clean run. -/
theorem find_matching_ref_multikind_mapping_lost :
    find_matching_ref rowsA3 rowsB3 (some ["article".toList, "proceedings".toList]) =
      .ok ([("csv2".toList, "C1".toList)],
        [⟨"article".toList, 1, 0, 0, [], []⟩,
         ⟨"proceedings".toList, 1, 0, 0, [], []⟩]) := by
  exact rfl

/-- C5: the spec says reconciliation never raises on data-quality
issues.  Under the default kinds, duplicate same-title CCV rows with a
venue-equal candidate make the code raise TypeError (and a consumed
candidate matched twice raises KeyError, see the C1 theorem), so
data-quality situations do abort the run. -/
theorem find_matching_ref_raises_on_duplicate_titles :
    find_matching_ref rowsA2 rowsB2 none =
      .error "TypeError: len() of unsized object" := by
  exact rfl

/-- C9: a None or empty pubtypes argument makes find_matching_ref
process exactly the kinds article and proceedings, whatever rows the two
collections hold. -/
theorem find_matching_ref_default_pubtypes (a b : List Row) :
    find_matching_ref a b none =
      find_matching_ref a b (some ["article".toList, "proceedings".toList]) ∧
    find_matching_ref a b (some []) =
      find_matching_ref a b (some ["article".toList, "proceedings".toList]) := by
  exact ⟨rfl, rfl⟩

/-- C4, counterexample: a disambiguation failure does NOT let the other
entries continue: with the unresolvable entry first, the whole pass
aborts with ValueError and the Bar entry is never updated, although the
same pass run on the Bar entry alone updates it and completes. -/
theorem sync_disamb_abort_cex :
    sync dfSync [entAmb, entBar] = .error syncDisambToken ∧
    sync dfSync [entBar] = .ok ([entBarUpd], true) := by
  exact ⟨rfl, rfl⟩

/-- C7, counterexample: sync does not leave persistence to the caller:
every completed pass ends with xml.write back to the input file (the
Bool of the result), here even for a pass that changed nothing. -/
theorem sync_write_flag_cex :
    sync dfSync [entTalk] = .ok ([entTalk], true) := by
  exact rfl

/-- C6, counterexample: the block text is replaced by str.replace over
the WHOLE line, so the occurrence of J1 outside the brackets is
rewritten too — the character at position 1 changes from 1 to 9 even
though it lies outside every bracketed block — and an id with no row in
the old collection raises IndexError instead of rendering the question
mark. -/
theorem replace_ref_outside_text_cex :
    replace_ref_in_text dfOld6 dfNew6 ["J1 x [J1]".toList] = .ok ["J9 x [J9]".toList] ∧
    "J9 x [J9]".toList.get? 1 ≠ "J1 x [J1]".toList.get? 1 ∧
    replace_ref_in_text dfOld6 dfNew6 ["[Z9]".toList] = .error "IndexError" := by
  exact ⟨rfl, by decide, rfl⟩

/-- Bind on a successful Except is the continuation. -/
theorem ok_bind {α β : Type} (a : α) (f : α → Except String β) :
    (Except.ok a >>= f) = f a := rfl

/-- Bind on a failed Except is the failure. -/
theorem error_bind {α β : Type} (e : String) (f : α → Except String β) :
    ((Except.error e : Except String α) >>= f) = .error e := rfl

/-- An Except bind that succeeded factors through a successful first
step. -/
theorem exceptBindOk {α β : Type} {e : Except String α} {f : α → Except String β}
    {b : β} (h : (e >>= f) = .ok b) : ∃ a, e = .ok a ∧ f a = .ok b := by
  cases e with
  | error err => simp [Bind.bind, Except.bind] at h
  | ok a => exact ⟨a, rfl, by simpa [Bind.bind, Except.bind] using h⟩

/-- A single row step hands the source collections back unchanged. -/
theorem processRowS_state {s : FMRState} {row : Row} {st st' : KState}
    {s' : FMRState} (h : processRowS s row st = .ok (st', s')) : s' = s := by
  unfold processRowS at h
  cases hp : processRow s.df_ccv row st with
  | error e => rw [hp] at h; simp [Except.map] at h
  | ok v => rw [hp] at h; simp [Except.map] at h; exact h.2.symm

/-- The row loop hands the source collections back unchanged. -/
theorem foldRowsS_state : ∀ {rows : List Row} {s : FMRState} {st st' : KState}
    {s' : FMRState}, foldRowsS s st rows = .ok (st', s') → s' = s := by
  intro rows
  induction rows with
  | nil =>
      intro s st st' s' h
      unfold foldRowsS at h
      simp at h
      exact h.2.symm
  | cons r rs ih =>
      intro s st st' s' h
      unfold foldRowsS at h
      cases hp : processRowS s r st with
      | error e => rw [hp] at h; simp [Bind.bind, Except.bind] at h
      | ok v =>
          obtain ⟨v1, v2⟩ := v
          rw [hp] at h
          simp only [Bind.bind, Except.bind] at h
          exact (ih h).trans (processRowS_state hp)

/-- A pubtype pass hands the source collections back unchanged. -/
theorem runPubtypeS_state {s : FMRState} {pt : Str} {out : Dict × KindReport}
    {s' : FMRState} (h : runPubtypeS s pt = .ok (out, s')) : s' = s := by
  unfold runPubtypeS at h
  obtain ⟨a, ha, h2⟩ := exceptBindOk h
  obtain ⟨st2, s2⟩ := a
  simp at h2
  exact h2.2.symm.trans (foldRowsS_state ha)

/-- The pubtype loop hands the source collections back unchanged. -/
theorem fmrLoopS_state : ∀ {pts : List Str} {s : FMRState}
    {out : Dict × List KindReport} {s' : FMRState},
    fmrLoopS s pts = .ok (out, s') → s' = s := by
  intro pts
  induction pts with
  | nil => intro s out s' h; unfold fmrLoopS at h; simp at h
  | cons pt rest ih =>
      intro s out s' h
      cases rest with
      | nil =>
          unfold fmrLoopS at h
          obtain ⟨a, ha, h2⟩ := exceptBindOk h
          obtain ⟨⟨m, rep⟩, s2⟩ := a
          simp at h2
          exact h2.2.symm.trans (runPubtypeS_state ha)
      | cons pt2 rest2 =>
          unfold fmrLoopS at h
          obtain ⟨a, ha, h2⟩ := exceptBindOk h
          obtain ⟨⟨m, rep⟩, s2⟩ := a
          obtain ⟨a2, ha2, h3⟩ := exceptBindOk h2
          obtain ⟨⟨m2, reps⟩, s3⟩ := a2
          simp at h3
          exact h3.2.symm.trans ((ih ha2).trans (runPubtypeS_state ha))

/-- find_matching_refS hands the source collections back unchanged. -/
theorem find_matching_refS_state {s : FMRState} {k : Option (List Str)}
    {out : Dict × List KindReport} {s' : FMRState}
    (h : find_matching_refS s k = .ok (out, s')) : s' = s := by
  cases k with
  | none => exact fmrLoopS_state h
  | some l =>
      simp only [find_matching_refS] at h
      by_cases hl : l.length < 1
      · rw [if_pos hl] at h; exact fmrLoopS_state h
      · rw [if_neg hl] at h; exact fmrLoopS_state h

/-- C8: find_matching_ref is deterministic and input-preserving: a
successful run leaves both source collections exactly as they were, and
running the engine again on the collections as they stand after the
first run reproduces the identical mapping and report. -/
theorem find_matching_ref_pure_idempotent (a b : List Row) (k : Option (List Str))
    (out : Dict × List KindReport) (s' : FMRState)
    (h : find_matching_refS ⟨a, b⟩ k = .ok (out, s')) :
    (s'.df_csv = a ∧ s'.df_ccv = b) ∧
      find_matching_refS ⟨s'.df_csv, s'.df_ccv⟩ k = .ok (out, s') := by
  have hs : s' = ⟨a, b⟩ := find_matching_refS_state h
  subst hs
  exact ⟨⟨rfl, rfl⟩, h⟩

/-- C8, witness: a concrete single-kind run returns its collections
untouched and reruns to the identical mapping and report. -/
theorem find_matching_ref_pure_idempotent_witness :
    (rowsA3 = rowsA3 ∧ rowsB3 = rowsB3) ∧
      find_matching_refS ⟨rowsA3, rowsB3⟩ (some ["article".toList]) =
        .ok (([("csv1".toList, "J1".toList)],
              [⟨"article".toList, 1, 0, 0, [], []⟩]), ⟨rowsA3, rowsB3⟩) :=
  find_matching_ref_pure_idempotent rowsA3 rowsB3 (some ["article".toList]) _ _ rfl


/-- Filtering on the ID column commutes with a venue overwrite of every
row. -/
theorem filter_id_map_withVenue (f : Row → Str) (id : Str) :
    ∀ l : List Row,
      (l.map (fun r => withVenue r (f r))).filter (fun r => r.ID == id)
        = (l.filter (fun r => r.ID == id)).map (fun r => withVenue r (f r)) := by
  intro l
  induction l with
  | nil => rfl
  | cons r rs ih =>
      have hw : ((withVenue r (f r)).ID == id) = (r.ID == id) := rfl
      simp only [List.map_cons, List.filter_cons, hw]
      by_cases h : (r.ID == id) = true
      · rw [if_pos h, if_pos h, ih]; rfl
      · rw [if_neg h, if_neg h]; exact ih

/-- Filtering on Title membership commutes with a venue overwrite of
every row. -/
theorem filter_title_map_withVenue (g : Row → Str) (ts : List Str) :
    ∀ l : List Row,
      (l.map (fun r => withVenue r (g r))).filter (fun r => ts.contains r.Title)
        = (l.filter (fun r => ts.contains r.Title)).map (fun r => withVenue r (g r)) := by
  intro l
  induction l with
  | nil => rfl
  | cons r rs ih =>
      have hw : (ts.contains (withVenue r (g r)).Title) = (ts.contains r.Title) := rfl
      simp only [List.map_cons, List.filter_cons, hw]
      by_cases h : ts.contains r.Title = true
      · rw [if_pos h, if_pos h, ih]; rfl
      · rw [if_neg h, if_neg h]; exact ih

/-- The titles of venue-overwritten rows are the original titles. -/
theorem map_title_withVenue (f : Row → Str) :
    ∀ l : List Row,
      (l.map (fun r => withVenue r (f r))).map (fun r => r.Title)
        = l.map (fun r => r.Title) := by
  intro l
  induction l with
  | nil => rfl
  | cons r rs ih => simp [withVenue, ih]

/-- C10: the per-id lookup of the reference-block rewriter matches by
exact Title equality alone — overwriting every venue in both collections
never changes its result — and when several new-collection rows carry a
title of the old record it silently returns the ID of the first row in
collection order, whatever same-title rows follow. -/
theorem newIdFor_title_only_first_match :
    (∀ (df_old df_new : List Row) (id : Str) (f g : Row → Str),
       newIdFor (df_old.map (fun r => withVenue r (f r)))
                (df_new.map (fun r => withVenue r (g r))) id
         = newIdFor df_old df_new id) ∧
    (∀ (df_old pre : List Row) (r : Row) (rest : List Row) (id : Str),
       (∀ x ∈ pre,
          ((df_old.filter (fun q => q.ID == id)).map (fun q => q.Title)).contains x.Title = false) →
       ((df_old.filter (fun q => q.ID == id)).map (fun q => q.Title)).contains r.Title = true →
       newIdFor df_old (pre ++ r :: rest) id = r.ID) := by
  constructor
  · intro df_old df_new id f g
    simp only [newIdFor]
    rw [filter_id_map_withVenue f id df_old, map_title_withVenue f]
    rw [filter_title_map_withVenue g
      ((df_old.filter (fun q => q.ID == id)).map (fun q => q.Title)) df_new]
    cases df_new.filter
        (fun r => ((df_old.filter (fun q => q.ID == id)).map (fun q => q.Title)).contains r.Title) with
    | nil => rfl
    | cons q qs => rfl
  · intro df_old pre r rest id hpre hr
    simp only [newIdFor]
    rw [List.filter_append]
    have h1 : pre.filter
        (fun x => ((df_old.filter (fun q => q.ID == id)).map (fun q => q.Title)).contains x.Title) = [] := by
      rw [List.filter_eq_nil_iff]
      intro x hx
      rw [hpre x hx]
      exact Bool.false_ne_true
    rw [h1, List.filter_cons, if_pos hr]
    rfl

/-- C10, witness: a concrete lookup is unchanged by venue overwrites and
picks the first of two same-title rows. -/
theorem newIdFor_title_only_first_match_witness :
    (newIdFor (dfOldW.map (fun r => withVenue r ("X".toList)))
              (dfNewW.map (fun r => withVenue r ("Y".toList))) ("J1".toList)
       = newIdFor dfOldW dfNewW ("J1".toList)) ∧
    ((∀ x ∈ [mkRow "N0" "article" "Baz" "A" "N"],
        ((dfOldW.filter (fun q => q.ID == "J1".toList)).map (fun q => q.Title)).contains x.Title = false) ∧
     ((dfOldW.filter (fun q => q.ID == "J1".toList)).map (fun q => q.Title)).contains
        (mkRow "N1" "article" "Foo" "A" "V1").Title = true ∧
     newIdFor dfOldW
        ([mkRow "N0" "article" "Baz" "A" "N"] ++
          mkRow "N1" "article" "Foo" "A" "V1" :: [mkRow "N2" "article" "Foo" "A" "V2"])
        ("J1".toList) = (mkRow "N1" "article" "Foo" "A" "V1").ID) :=
  ⟨newIdFor_title_only_first_match.1 dfOldW dfNewW ("J1".toList)
      (fun _ => "X".toList) (fun _ => "Y".toList),
   by decide,
   by decide,
   newIdFor_title_only_first_match.2 dfOldW [mkRow "N0" "article" "Baz" "A" "N"]
     (mkRow "N1" "article" "Foo" "A" "V1")
     [mkRow "N2" "article" "Foo" "A" "V2"] ("J1".toList) (by decide) (by decide)⟩

/-- entryFrame is reflexive: an untouched entry is within the frame. -/
theorem entryFrame_refl (p : Entry) : entryFrame p p :=
  ⟨rfl, List.forall₂_same.mpr (fun _ _ => ⟨rfl, fun _ _ => rfl⟩)⟩

/-- setFirst changes at most the value of fields carrying the given
label, and no label at all. -/
theorem setFirst_frame (lab v : Str) :
    ∀ fs : List XmlField,
      List.Forall₂ (fun f f' => f'.label = f.label ∧ (f.label ≠ lab → f' = f))
        fs (setFirst fs lab v) := by
  intro fs
  induction fs with
  | nil => exact List.Forall₂.nil
  | cons f fs ih =>
      simp only [setFirst]
      by_cases h : (f.label == lab) = true
      · rw [if_pos h]
        exact List.Forall₂.cons ⟨rfl, fun hne => absurd (eq_of_beq h) hne⟩
          (List.forall₂_same.mpr (fun x _ => ⟨rfl, fun _ => rfl⟩))
      · rw [if_neg h]
        exact List.Forall₂.cons ⟨rfl, fun _ => rfl⟩ ih

/-- A successful setValueE keeps the entry label and every field whose
label differs from the written one. -/
theorem setValueE_ok {p : Entry} {lab v : Str} {p' : Entry}
    (h : setValueE p lab v = .ok p') :
    p'.label = p.label ∧
      List.Forall₂ (fun f f' => f'.label = f.label ∧ (f.label ≠ lab → f' = f))
        p.fields p'.fields := by
  unfold setValueE at h
  by_cases hc : (p.fields.any (fun f => f.label == lab)) = true
  · rw [if_pos hc] at h
    simp only [Except.ok.injEq] at h
    subst h
    exact ⟨rfl, setFirst_frame lab v p.fields⟩
  · rw [if_neg hc] at h
    simp at h

/-- Pointwise composition of two Forall₂ relations. -/
theorem forall2_trans {α : Type} {R1 R2 R3 : α → α → Prop}
    (h : ∀ a b c, R1 a b → R2 b c → R3 a c) :
    ∀ {as bs cs : List α}, List.Forall₂ R1 as bs → List.Forall₂ R2 bs cs →
      List.Forall₂ R3 as cs := by
  intro as bs cs h1
  induction h1 generalizing cs with
  | nil => intro h2; cases h2; exact List.Forall₂.nil
  | cons hab h1' ih =>
      intro h2
      cases h2 with
      | cons hbc h2' => exact List.Forall₂.cons (h _ _ _ hab hbc) (ih h2')

/-- The venue label an entry kind resolves to. -/
theorem venueLabelOf_eq {plab fv : Str} (h : dictGet field_venue plab = .ok fv) :
    venueLabelOf plab = fv := by
  unfold venueLabelOf
  rw [h]

/-- Writing the Authors value and then the venue value keeps an entry
within the sync frame. -/
theorem update_frame {p p1 p2 : Entry} {fv a w : Str}
    (hfv : dictGet field_venue p.label = .ok fv)
    (h1 : setValueE p ("Authors".toList) a = .ok p1)
    (h2 : setValueE p1 fv w = .ok p2) : entryFrame p p2 := by
  obtain ⟨hl1, hf1⟩ := setValueE_ok h1
  obtain ⟨hl2, hf2⟩ := setValueE_ok h2
  refine ⟨hl2.trans hl1, ?_⟩
  refine forall2_trans ?_ hf1 hf2
  intro f g h' hg hh
  refine ⟨hh.1.trans hg.1, ?_⟩
  intro hA hV
  have hgf : g = f := hg.2 hA
  have hhg : h' = g := by
    refine hh.2 ?_
    rw [hgf]
    rw [venueLabelOf_eq hfv] at hV
    exact hV
  rw [hhg, hgf]

/-- A successful syncEntry stays within the entry frame: same label,
same field labels, only the Authors value and the venue value of the
entry kind possibly rewritten. -/
theorem syncEntry_frame {df : List Row} {p p' : Entry}
    (h : syncEntry df p = .ok p') : entryFrame p p' := by
  unfold syncEntry at h
  by_cases hc : dictHas ccvtype2usertype p.label = true
  · rw [if_pos hc] at h
    obtain ⟨ft, hft, h⟩ := exceptBindOk h
    obtain ⟨t, ht, h⟩ := exceptBindOk h
    obtain ⟨ut, hut, h⟩ := exceptBindOk h
    dsimp only at h
    by_cases h0 : ((df.filter (fun r => r.Typ == ut && r.Title == t)).length == 0) = true
    · rw [if_pos h0] at h
      simp only [Except.ok.injEq] at h
      subst h
      exact entryFrame_refl p
    · rw [if_neg h0] at h
      by_cases hgt : (df.filter (fun r => r.Typ == ut && r.Title == t)).length > 1
      · rw [if_pos hgt] at h
        obtain ⟨fv, hfv, h⟩ := exceptBindOk h
        obtain ⟨vt, hvt, h⟩ := exceptBindOk h
        by_cases h1 : (((df.filter (fun r => r.Typ == ut && r.Title == t)).filter
            (fun r => r.JournalConference == vt)).length == 1) = true
        · rw [if_pos h1] at h
          obtain ⟨rowv, hrow, h⟩ := exceptBindOk h
          match rowv with
          | [] => simp [Bind.bind, Except.bind] at h
          | r1 :: r2 :: rest => simp [Bind.bind, Except.bind] at h
          | [r] =>
              obtain ⟨p1, hA, h⟩ := exceptBindOk h
              obtain ⟨fv2, hfv2, h⟩ := exceptBindOk h
              obtain ⟨p2, hV, h⟩ := exceptBindOk h
              simp only [Except.ok.injEq] at h
              subst h
              exact update_frame hfv2 hA hV
        · rw [if_neg h1] at h
          simp [Bind.bind, Except.bind] at h
      · rw [if_neg hgt] at h
        obtain ⟨rowv, hrow, h⟩ := exceptBindOk h
        match rowv with
        | [] => simp [Bind.bind, Except.bind] at h
        | r1 :: r2 :: rest => simp [Bind.bind, Except.bind] at h
        | [r] =>
            obtain ⟨p1, hA, h⟩ := exceptBindOk h
            obtain ⟨fv2, hfv2, h⟩ := exceptBindOk h
            obtain ⟨p2, hV, h⟩ := exceptBindOk h
            simp only [Except.ok.injEq] at h
            subst h
            exact update_frame hfv2 hA hV
  · rw [if_neg hc] at h
    simp only [Except.ok.injEq] at h
    subst h
    exact entryFrame_refl p

/-- The entry loop relates input and output trees entrywise. -/
theorem syncEntries_frame {df : List Row} :
    ∀ {tree out : List Entry}, syncEntries df tree = .ok out →
      List.Forall₂ entryFrame tree out := by
  intro tree
  induction tree with
  | nil =>
      intro out h
      unfold syncEntries at h
      simp only [Except.ok.injEq] at h
      subst h
      exact List.Forall₂.nil
  | cons p ps ih =>
      intro out h
      unfold syncEntries at h
      obtain ⟨p', hp, h⟩ := exceptBindOk h
      obtain ⟨ps', hps, h⟩ := exceptBindOk h
      simp only [Except.ok.injEq] at h
      subst h
      exact List.Forall₂.cons (syncEntry_frame hp) (ih hps)

/-- C7, amended: a completed sync pass never creates or deletes a
publication entry — the output tree has the same entries in the same
order, each one either untouched or changed only in the text of its
Authors value and its kind venue value — and the pass itself serializes
the tree back to the input file (the write flag of a completed pass is
always set; persistence is not left to the caller). -/
theorem sync_frame_and_write (df : List Row) (tree out : List Entry) (b : Bool)
    (h : sync df tree = .ok (out, b)) :
    out.length = tree.length ∧ List.Forall₂ entryFrame tree out ∧ b = true := by
  unfold sync at h
  obtain ⟨t, ht, h⟩ := exceptBindOk h
  simp only [Except.ok.injEq, Prod.mk.injEq] at h
  obtain ⟨h1, h2⟩ := h
  subst h1
  have hf := syncEntries_frame ht
  exact ⟨hf.length_eq.symm, hf, h2.symm⟩

/-- C7, witness: the concrete single-entry pass stays within the frame
and sets the write flag. -/
theorem sync_frame_and_write_witness :
    (sync dfSync [entBar] = .ok ([entBarUpd], true)) ∧
    ([entBarUpd].length = [entBar].length ∧
      List.Forall₂ entryFrame [entBar] [entBarUpd] ∧ true = true) :=
  ⟨rfl, sync_frame_and_write dfSync [entBar] [entBarUpd] true rfl⟩

/-- C4, amended: a target entry with zero matching source records (by
kind and title) is left untouched and the pass continues with the next
entry; but a target entry whose two-plus title candidates are not
resolved to exactly one by venue equality raises a fatal ValueError that
aborts the ENTIRE pass — no later entry is processed and the tree is
not written — rather than only that entry failing while the others
continue. -/
theorem sync_zero_skip_and_disamb_abort :
    (∀ (df : List Row) (p : Entry) (ps : List Entry) (ft t ut : Str),
       dictHas ccvtype2usertype p.label = true →
       dictGet field_title p.label = .ok ft →
       getValueE p ft = .ok t →
       dictGet ccvtype2usertype p.label = .ok ut →
       df.filter (fun r => r.Typ == ut && r.Title == t) = [] →
       sync df (p :: ps) = (sync df ps).map (fun x => (p :: x.1, x.2))) ∧
    (∀ (df : List Row) (p : Entry) (ps : List Entry) (ft t ut fv vt : Str),
       dictHas ccvtype2usertype p.label = true →
       dictGet field_title p.label = .ok ft →
       getValueE p ft = .ok t →
       dictGet ccvtype2usertype p.label = .ok ut →
       (df.filter (fun r => r.Typ == ut && r.Title == t)).length > 1 →
       dictGet field_venue p.label = .ok fv →
       getValueE p fv = .ok vt →
       ((df.filter (fun r => r.Typ == ut && r.Title == t)).filter
          (fun r => r.JournalConference == vt)).length ≠ 1 →
       sync df (p :: ps) = .error syncDisambToken) := by
  constructor
  · intro df p ps ft t ut hc hft ht hut hrow
    have he : syncEntry df p = .ok p := by
      unfold syncEntry
      rw [if_pos hc]
      simp [Bind.bind, Except.bind, hft, ht, hut, hrow]
    cases hs : syncEntries df ps with
    | error e => simp [sync, syncEntries, Bind.bind, Except.bind, he, hs, Except.map]
    | ok t' => simp [sync, syncEntries, Bind.bind, Except.bind, he, hs, Except.map]
  · intro df p ps ft t ut fv vt hc hft ht hut hgt hfv hvt hne
    have h0 : ((df.filter (fun r => r.Typ == ut && r.Title == t)).length == 0) = false :=
      beq_eq_false_iff_ne.mpr (by omega)
    have h1 : (((df.filter (fun r => r.Typ == ut && r.Title == t)).filter
        (fun r => r.JournalConference == vt)).length == 1) = false :=
      beq_eq_false_iff_ne.mpr hne
    have he : syncEntry df p = .error syncDisambToken := by
      unfold syncEntry
      rw [if_pos hc, hft]
      simp only [ok_bind]
      rw [ht]
      simp only [ok_bind]
      rw [hut]
      simp only [ok_bind]
      rw [if_neg (by simp [h0])]
      rw [if_pos hgt, hfv]
      simp only [ok_bind]
      rw [hvt]
      simp only [ok_bind]
      rw [if_neg (by
        simp only [beq_iff_eq, List.filter_filter]
        rw [List.filter_filter] at hne
        exact hne)]
      simp only [error_bind]
    simp [sync, syncEntries, Bind.bind, Except.bind, he]

/-- C4, witness: the theorem applied to a concrete skipped entry with no
candidate and to the concrete two-entry pass whose first entry cannot be
disambiguated. -/
theorem sync_zero_skip_and_disamb_abort_witness :
    (dfSync.filter (fun r => r.Typ == "article".toList && r.Title == "Qux".toList) = [] ∧
     sync dfSync [entQux] = (sync dfSync []).map (fun x => (entQux :: x.1, x.2))) ∧
    ((dfSync.filter (fun r => r.Typ == "article".toList && r.Title == "Foo".toList)).length > 1 ∧
     ((dfSync.filter (fun r => r.Typ == "article".toList && r.Title == "Foo".toList)).filter
        (fun r => r.JournalConference == "V9".toList)).length ≠ 1 ∧
     sync dfSync [entAmb, entBar] = .error syncDisambToken) :=
  ⟨⟨by decide,
    sync_zero_skip_and_disamb_abort.1 dfSync entQux [] ("Article Title".toList)
      ("Qux".toList) ("article".toList) rfl rfl rfl rfl (by decide)⟩,
   by decide, by decide,
   sync_zero_skip_and_disamb_abort.2 dfSync entAmb [entBar] ("Article Title".toList)
     ("Foo".toList) ("article".toList) ("Journal".toList) ("V9".toList)
     rfl rfl rfl rfl (by decide) rfl rfl (by decide)⟩

/-- A split result is never the empty list of pieces. -/
theorem pySplitChar_ne_nil (c : Char) : ∀ s : List Char, pySplitChar c s ≠ [] := by
  intro s
  induction s with
  | nil => simp [pySplitChar]
  | cons x xs ih =>
      simp only [pySplitChar]
      cases h : pySplitChar c xs with
      | nil => simp
      | cons hd t =>
          by_cases hx : x = c
          · simp [hx]
          · simp [hx]

/-- Splitting on a character that does not occur returns the whole
string as the single piece. -/
theorem pySplitChar_not_mem {c : Char} : ∀ {s : List Char}, c ∉ s → pySplitChar c s = [s] := by
  intro s
  induction s with
  | nil => intro _; rfl
  | cons x xs ih =>
      intro h
      have hx : x ≠ c := by
        intro he
        subst he
        exact h (List.mem_cons_self x xs)
      have hxs : c ∉ xs := fun hm => h (List.mem_cons_of_mem x hm)
      simp only [pySplitChar, ih hxs]
      rw [if_neg hx]

/-- Splitting at the first occurrence of the separator cuts off the
clean front piece. -/
theorem pySplitChar_app {c : Char} : ∀ {s : List Char}, c ∉ s →
    ∀ t, pySplitChar c (s ++ c :: t) = s :: pySplitChar c t := by
  intro s
  induction s with
  | nil =>
      intro _ t
      simp only [List.nil_append, pySplitChar]
      cases h : pySplitChar c t with
      | nil => exact absurd h (pySplitChar_ne_nil c t)
      | cons hd tl => simp
  | cons x xs ih =>
      intro h t
      have hx : x ≠ c := by
        intro he
        subst he
        exact h (List.mem_cons_self x xs)
      have hxs : c ∉ xs := fun hm => h (List.mem_cons_of_mem x hm)
      simp only [List.cons_append, pySplitChar, List.append_eq, ih hxs t]
      rw [if_neg hx]

/-- On a text with exactly one bracketed block whose content carries no
bracket characters, find_ref_blocks extracts exactly that block. -/
theorem find_ref_blocks_single {pre b post : Str}
    (hpre : '[' ∉ pre) (hb1 : '[' ∉ b) (hb2 : ']' ∉ b) (hpost : '[' ∉ post) :
    find_ref_blocks (pre ++ '[' :: (b ++ ']' :: post)) = [b] := by
  unfold find_ref_blocks
  rw [pySplitChar_app hpre]
  have hnm : '[' ∉ (b ++ ']' :: post) := by
    intro hm
    rcases List.mem_append.mp hm with h | h
    · exact hb1 h
    · rcases List.mem_cons.mp h with h | h
      · exact absurd h (by decide)
      · exact hpost h
  rw [pySplitChar_not_mem hnm]
  simp [pySplitChar_app hb2, List.headD]

/-- A list is a prefix of itself followed by anything. -/
theorem isPrefixOf_app_self : ∀ (u v : List Char), u.isPrefixOf (u ++ v) = true := by
  intro u v
  induction u with
  | nil => cases v <;> rfl
  | cons a as ih => simp [List.isPrefixOf, ih]

/-- A nonempty list is no prefix of the empty string. -/
theorem isPrefixOf_nil_false {b : List Char} (hb : b ≠ []) :
    b.isPrefixOf ([] : List Char) = false := by
  cases b with
  | nil => exact absurd rfl hb
  | cons x xs => rfl

/-- Dropping the length of the front part of an append. -/
theorem drop_app_len : ∀ (u v : List Char), (u ++ v).drop u.length = v := by
  intro u v
  induction u with
  | nil => rfl
  | cons a as ih =>
      simp only [List.cons_append, List.length_cons, List.drop_succ_cons]
      exact ih

/-- Dropping beyond the front part of an append drops in the back
part. -/
theorem drop_app_add : ∀ (u v : List Char) (i : Nat),
    (u ++ v).drop (u.length + i) = v.drop i := by
  intro u v i
  induction u with
  | nil => simp
  | cons a as ih =>
      simp only [List.cons_append, List.length_cons]
      rw [show as.length + 1 + i = (as.length + i) + 1 from by omega]
      rw [List.drop_succ_cons]
      exact ih

/-- str.replace leaves a string without any occurrence of the pattern
untouched. -/
theorem pyReplaceFuel_no_occ {b nb : List Char} :
    ∀ (fuel : Nat) (v : List Char), v.length ≤ fuel →
      (∀ j, b.isPrefixOf (v.drop j) = false) →
      pyReplaceFuel b nb fuel v = v := by
  intro fuel
  induction fuel with
  | zero =>
      intro v hlen _
      have hv : v = [] := List.eq_nil_of_length_eq_zero (Nat.le_zero.mp hlen)
      subst hv
      rfl
  | succ f ih =>
      intro v hlen hocc
      cases v with
      | nil => rfl
      | cons x xs =>
          have h0 : b.isPrefixOf (x :: xs) = false := by simpa using hocc 0
          simp only [pyReplaceFuel]
          rw [if_neg (by simp [h0])]
          congr 1
          apply ih xs (by simp at hlen; omega)
          intro j
          simpa [List.drop_succ_cons] using hocc (j + 1)

/-- str.replace on a string holding exactly one occurrence of the
pattern substitutes that occurrence and nothing else. -/
theorem pyReplaceFuel_single {b nb : List Char} (hb : b ≠ []) :
    ∀ (u : List Char) (fuel : Nat) (v : List Char),
      (u ++ (b ++ v)).length ≤ fuel →
      (∀ i, b.isPrefixOf ((u ++ (b ++ v)).drop i) = true → i = u.length) →
      pyReplaceFuel b nb fuel (u ++ (b ++ v)) = u ++ (nb ++ v) := by
  intro u
  induction u with
  | nil =>
      intro fuel v hlen hocc
      simp only [List.nil_append] at hlen hocc ⊢
      obtain ⟨c, bt, rfl⟩ : ∃ c bt, b = c :: bt := by
        cases b with
        | nil => exact absurd rfl hb
        | cons c bt => exact ⟨c, bt, rfl⟩
      cases fuel with
      | zero => simp at hlen
      | succ f =>
          simp only [List.cons_append, pyReplaceFuel, List.append_eq]
          have hguard : ((c :: bt).isPrefixOf (c :: (bt ++ v)) && !(c :: bt).isEmpty) = true := by
            have h1 := isPrefixOf_app_self (c :: bt) v
            simp only [List.cons_append] at h1
            simp [h1, List.isEmpty]
          rw [if_pos hguard]
          have hdrop : (c :: (bt ++ v)).drop (c :: bt).length = v := by
            have h2 := drop_app_len (c :: bt) v
            simp only [List.cons_append] at h2
            exact h2
          rw [hdrop]
          congr 1
          apply pyReplaceFuel_no_occ f v
          · simp at hlen ⊢
            omega
          · intro j
            cases hcase : (c :: bt).isPrefixOf (v.drop j) with
            | false => rfl
            | true =>
                exfalso
                have harg : (c :: bt).isPrefixOf (((c :: bt) ++ v).drop ((c :: bt).length + j)) = true := by
                  rw [drop_app_add (c :: bt) v j]
                  exact hcase
                have h3 := hocc ((c :: bt).length + j) harg
                simp at h3
  | cons a as ih =>
      intro fuel v hlen hocc
      cases fuel with
      | zero => simp at hlen
      | succ f =>
          simp only [List.cons_append, pyReplaceFuel, List.append_eq]
          have hg : b.isPrefixOf (a :: (as ++ (b ++ v))) = false := by
            cases hcase : b.isPrefixOf (a :: (as ++ (b ++ v))) with
            | false => rfl
            | true =>
                exfalso
                have h := hocc 0 (by simpa [List.cons_append] using hcase)
                simp at h
          rw [if_neg (by simp [hg])]
          congr 1
          apply ih f v
          · simp at hlen ⊢
            omega
          · intro i hi
            have := hocc (i + 1) (by simpa [List.cons_append, List.drop_succ_cons] using hi)
            simp at this
            omega

/-- pyReplace on a string holding exactly one occurrence of the
pattern. -/
theorem pyReplace_single {b nb : List Char} (hb : b ≠ []) (u v : List Char)
    (hocc : ∀ i, b.isPrefixOf ((u ++ (b ++ v)).drop i) = true → i = u.length) :
    pyReplace (u ++ (b ++ v)) b nb = u ++ (nb ++ v) := by
  unfold pyReplace
  have hie : b.isEmpty = false := by
    cases b with
    | nil => exact absurd rfl hb
    | cons x xs => rfl
  rw [if_neg (by simp [hie])]
  exact pyReplaceFuel_single hb u _ v (le_refl _) hocc

/-- When every id of a block names at least one row of the old
collection, the id loop succeeds and returns the per-id lookups in
order. -/
theorem processIds_ok (df_old df_new : List Row) :
    ∀ ids : List Str, (∀ id ∈ ids, (df_old.filter (fun r => r.ID == id)) ≠ []) →
      processIds df_old df_new ids = .ok (ids.map (newIdFor df_old df_new)) := by
  intro ids
  induction ids with
  | nil => intro _; rfl
  | cons id rest ih =>
      intro h
      have h1 : (df_old.filter (fun r => r.ID == id)) ≠ [] :=
        h id (List.mem_cons_self id rest)
      have hd : display_replacement df_old id = .ok () := by
        unfold display_replacement
        cases hh : df_old.filter (fun r => r.ID == id) with
        | nil => exact absurd hh h1
        | cons r rs => rfl
      unfold processIds
      rw [hd]
      simp only [ok_bind]
      rw [ih (fun x hx => h x (List.mem_cons_of_mem id hx))]
      simp only [ok_bind]
      rfl

/-- Under the same condition a whole block is processed into the
replaced line. -/
theorem processBlock_ok (df_old df_new : List Row) (line b : Str)
    (hids : ∀ id ∈ pySplit (", ".toList) b, (df_old.filter (fun r => r.ID == id)) ≠ []) :
    processBlock df_old df_new false line b =
      .ok (pyReplace line b (List.intercalate (", ".toList)
        ((pySplit (", ".toList) b).map (newIdFor df_old df_new)))) := by
  simp only [processBlock]
  rw [processIds_ok df_old df_new _ hids]
  simp only [ok_bind]
  rfl

/-- mapM over a one-line input. -/
theorem exceptMapM_single {α β : Type} (f : α → Except String β) (x : α) (y : β)
    (h : f x = .ok y) : List.mapM f [x] = .ok [y] := by
  simp [List.mapM, List.mapM.loop, h]

/-- foldlM over a one-block list. -/
theorem exceptFoldlM_single {α β : Type} (f : β → α → Except String β) (init : β)
    (x : α) (y : β) (h : f init x = .ok y) : List.foldlM f init [x] = .ok y := by
  simp [List.foldlM, h]

/-- C6, amended: on a text with exactly one bracketed block — no
bracket characters inside the block or elsewhere beyond the pair, the
block text nonempty and occurring nowhere else in the line, every id of
the block naming a row of the old collection — the rewriter replaces
the block by the comma-joined mapped ids and preserves everything else;
an id whose titles have no counterpart in the new collection is
rendered as the question-mark placeholder.  (In general the new block
is substituted for EVERY occurrence of the block text in the line, and
an id absent from the old collection raises IndexError; see the
counterexample.) -/
theorem replace_ref_single_block :
    (∀ (df_old df_new : List Row) (pre b post : Str),
       '[' ∉ pre → '[' ∉ b → ']' ∉ b → '[' ∉ post → b ≠ [] →
       (∀ i, i ≤ (pre ++ '[' :: (b ++ ']' :: post)).length →
          b.isPrefixOf ((pre ++ '[' :: (b ++ ']' :: post)).drop i) = true →
          i = pre.length + 1) →
       (∀ id ∈ pySplit (", ".toList) b, (df_old.filter (fun r => r.ID == id)) ≠ []) →
       replace_ref_in_text df_old df_new [pre ++ '[' :: (b ++ ']' :: post)] false =
         .ok [pre ++ '[' :: (List.intercalate (", ".toList)
             ((pySplit (", ".toList) b).map (newIdFor df_old df_new)) ++ ']' :: post)]) ∧
    (∀ (df_old df_new : List Row) (id : Str),
       (∀ r ∈ df_new,
          ((df_old.filter (fun q => q.ID == id)).map (fun q => q.Title)).contains r.Title = false) →
       newIdFor df_old df_new id = "?".toList) := by
  constructor
  · intro df_old df_new pre b post hpre hb1 hb2 hpost hbne hocc hids
    have hocc' : ∀ i,
        b.isPrefixOf (((pre ++ ['[']) ++ (b ++ (']' :: post))).drop i) = true →
        i = (pre ++ ['[']).length := by
      intro i hi
      have hassoc : (pre ++ ['[']) ++ (b ++ (']' :: post)) = pre ++ '[' :: (b ++ ']' :: post) := by
        simp
      rw [hassoc] at hi
      by_cases hile : i ≤ (pre ++ '[' :: (b ++ ']' :: post)).length
      · have h := hocc i hile hi
        simp [h, List.length_append]
      · exfalso
        have hdn : (pre ++ '[' :: (b ++ ']' :: post)).drop i = [] := by
          apply List.drop_eq_nil_of_le
          omega
        rw [hdn, isPrefixOf_nil_false hbne] at hi
        simp at hi
    have hline : processLine df_old df_new false (pre ++ '[' :: (b ++ ']' :: post)) =
        .ok (pre ++ '[' :: (List.intercalate (", ".toList)
          ((pySplit (", ".toList) b).map (newIdFor df_old df_new)) ++ ']' :: post)) := by
      unfold processLine
      rw [find_ref_blocks_single hpre hb1 hb2 hpost]
      rw [exceptFoldlM_single _ _ _ _ (processBlock_ok df_old df_new _ b hids)]
      have hassoc1 : pre ++ '[' :: (b ++ ']' :: post) = (pre ++ ['[']) ++ (b ++ (']' :: post)) := by
        simp
      rw [hassoc1, pyReplace_single hbne (pre ++ ['[']) (']' :: post) hocc']
      simp
    unfold replace_ref_in_text
    exact exceptMapM_single _ _ _ hline
  · intro df_old df_new id h
    simp only [newIdFor]
    have hf : df_new.filter
        (fun r => ((df_old.filter (fun q => q.ID == id)).map (fun q => q.Title)).contains r.Title) = [] := by
      rw [List.filter_eq_nil_iff]
      intro r hr
      rw [h r hr]
      exact Bool.false_ne_true
    rw [hf]

/-- C6, witness: the spec scenario — rewriting the sentence with the
block J1, J2 where J1 maps to J9 and J2 has no counterpart yields the
sentence with the block J9, ? — together with the question-mark
rendering of the unmatched id. -/
theorem replace_ref_single_block_witness :
    (∀ id ∈ pySplit (", ".toList) ("J1, J2".toList),
       (dfOldW.filter (fun r => r.ID == id)) ≠ []) ∧
    newIdFor dfOldW dfNewW ("J2".toList) = "?".toList ∧
    replace_ref_in_text dfOldW dfNewW ["results were [J1, J2] strong".toList] false =
      .ok ["results were [J9, ?] strong".toList] := by
  refine ⟨by decide, ?_, ?_⟩
  · exact replace_ref_single_block.2 dfOldW dfNewW ("J2".toList) (by decide)
  · have h := replace_ref_single_block.1 dfOldW dfNewW
      ("results were ".toList) ("J1, J2".toList) (" strong".toList)
      (by decide) (by decide) (by decide) (by decide) (by decide) (by decide) (by decide)
    have heq : "results were ".toList ++ '[' :: ("J1, J2".toList ++ ']' :: " strong".toList)
        = "results were [J1, J2] strong".toList := by decide
    rw [heq] at h
    rw [h]
    exact congrArg (fun s => Except.ok [s]) (by decide)
